import Mathlib

/-!
Verification of the WHOIS registrar-resolution engine (src/hw1.py).

The Python string primitives the program uses (str.lower, str.strip,
str.split, str.join, str.startswith, the `in` substring test) are embedded
as executable Lean functions on `String` / `List Char`; the program's
functions are then translated one-to-one.  The external `whois` subprocess
is modelled as an oracle `String → ProcResult` (respectively
`String → String → ProcResult` for the `whois -h server domain` referral
form), so the per-domain pipeline is a pure function of the oracle.
-/

namespace Whois

/-- ASCII lower-casing of one character, as Python str.lower acts on ASCII. -/
def pyLowerChar (c : Char) : Char :=
  if 'A' ≤ c ∧ c ≤ 'Z' then Char.ofNat (c.toNat + 32) else c

/-- Python s.lower() (ASCII fragment). -/
def pyLower (s : String) : String := (s.toList.map pyLowerChar).asString

/-- Whitespace characters recognized by Python str.strip (ASCII fragment). -/
def isPySpace (c : Char) : Bool :=
  c = ' ' || c = '\t' || c = '\n' || c = '\r' || c = '\x0b' || c = '\x0c'

def pyStripL (l : List Char) : List Char :=
  ((l.dropWhile isPySpace).reverse.dropWhile isPySpace).reverse

/-- Python s.strip(). -/
def pyStrip (s : String) : String := (pyStripL s.toList).asString

/-- Python s.startswith(pre). -/
def startsWithPy (s pre : String) : Bool := pre.toList.isPrefixOf s.toList

def subContains (pat : List Char) : List Char → Bool
  | [] => pat.isEmpty
  | c :: rest => pat.isPrefixOf (c :: rest) || subContains pat rest

/-- Python substring test: pat in s. -/
def pyContains (s pat : String) : Bool := subContains pat.toList s.toList

/-- Python s.split(sep) for a one-character separator, on character lists. -/
def splitCharL (sep : Char) : List Char → List (List Char)
  | [] => [[]]
  | c :: rest =>
    match splitCharL sep rest with
    | [] => [[c]]
    | g :: gs => if c = sep then [] :: g :: gs else (c :: g) :: gs

/-- Python sep.join(groups), on character lists. -/
def joinCharL (sep : Char) : List (List Char) → List Char
  | [] => []
  | [g] => g
  | g :: g2 :: gs => g ++ sep :: joinCharL sep (g2 :: gs)

/-- Python s.split(sep) for a one-character separator. -/
def pySplit (sep : Char) (s : String) : List String :=
  (splitCharL sep s.toList).map List.asString

/-- Python sep.join(xs) for a one-character separator. -/
def pyJoin (sep : Char) (xs : List String) : String :=
  (joinCharL sep (xs.map String.toList)).asString

/-- Python s.split(sep, 1) when sep occurs in s: the pieces before and after
the first occurrence of sep. -/
def splitFirst (sep : Char) (s : String) : String × String :=
  ((s.toList.takeWhile (fun c => c ≠ sep)).asString,
   ((s.toList.dropWhile (fun c => c ≠ sep)).drop 1).asString)

/-- The subdomain labels hard-coded in extract_registrable_domain. -/
def subdomain_labels : List String := ["www", "mail", "ftp", "blog", "shop"]

/-- Embeds extract_registrable_domain (src/hw1.py lines 30-39). -/
def extract_registrable_domain (domain : String) : String :=
  if 2 < (pySplit '.' (pyLower domain)).length ∧
      (pySplit '.' (pyLower domain)).headD "" ∈ subdomain_labels then
    pyJoin '.' (pySplit '.' (pyLower domain)).tail
  else domain

/-- A Python dict from field names to values, as an insertion-ordered
association list with unique keys. -/
abbrev Dict := List (String × String)

/-- Python d[k] as an Option (also Python's `k in d` via isSome). -/
def dget? (d : Dict) (k : String) : Option String :=
  (d.find? (fun p => p.1 == k)).map Prod.snd

/-- Python d[k] = v : replace the binding of k in place, or append it. -/
def dinsert (k v : String) : Dict → Dict
  | [] => [(k, v)]
  | p :: rest => if p.1 == k then (k, v) :: rest else p :: dinsert k v rest

/-- The loop body of parse_whois_data (src/hw1.py lines 47-57) for one line:
the stored key/value pair, or none when the line is skipped. -/
def parseLineKV (line : String) : Option (String × String) :=
  if pyStrip line == "" || startsWithPy (pyStrip line) "%" ||
      startsWithPy (pyStrip line) "#" then none
  else if pyContains (pyStrip line) ":" then
    if pyStrip (splitFirst ':' (pyStrip line)).2 != "" then
      some (pyLower (pyStrip (splitFirst ':' (pyStrip line)).1),
            pyStrip (splitFirst ':' (pyStrip line)).2)
    else none
  else none

/-- Embeds parse_whois_data (src/hw1.py lines 42-59). -/
def parse_whois_data (data : String) : Dict :=
  (pySplit '\n' data).foldl
    (fun result line =>
      match parseLineKV line with
      | some kv => dinsert kv.1 kv.2 result
      | none => result) []

/-- The registrar field variants, in order of preference (src/hw1.py lines 68-74). -/
def registrar_fields : List String :=
  ["registrar", "sponsoring registrar", "registrar name",
   "registrar organization", "registrant organization"]

/-- The noise substrings rejected by find_registrar (src/hw1.py line 81). -/
def registrarNoise : List String := ["http", "whois", ".com/", ".net/"]

/-- The value filter of find_registrar: skip URLs and WHOIS servers. -/
def registrarValueOk (registrar : String) : Bool :=
  !(registrarNoise.any (fun x => pyContains (pyLower registrar) x))

/-- The field loop of find_registrar (src/hw1.py lines 76-83). -/
def findRegistrarGo (d : Dict) : List String → Option String
  | [] => none
  | field :: rest =>
    match dget? d field with
    | some registrar =>
      if registrarValueOk registrar then some registrar else findRegistrarGo d rest
    | none => findRegistrarGo d rest

/-- Embeds find_registrar (src/hw1.py lines 62-85). -/
def find_registrar (parsed_data : Dict) : Option String :=
  findRegistrarGo parsed_data registrar_fields

/-- The referral field variants (src/hw1.py line 90). -/
def referral_fields : List String := ["whois server", "referral whois server", "whois"]

/-- The value filter of check_referral (src/hw1.py line 95). -/
def referralValueOk (referral : String) : Bool :=
  referral != "" && !(startsWithPy (pyLower referral) "http")

/-- The field loop of check_referral (src/hw1.py lines 92-96). -/
def checkReferralGo (d : Dict) : List String → Option String
  | [] => none
  | field :: rest =>
    match dget? d field with
    | some referral =>
      if referralValueOk referral then some referral else checkReferralGo d rest
    | none => checkReferralGo d rest

/-- Embeds check_referral (src/hw1.py lines 88-97). -/
def check_referral (parsed_data : Dict) : Option String :=
  checkReferralGo parsed_data referral_fields

/-- Outcome of one run of the external whois subprocess: it completed with
an exit code, stdout and stderr; or it hit the timeout; or some other
exception was raised. -/
inductive ProcResult where
  | completed (returncode : Int) (stdout stderr : String)
  | timedOut
  | raised (msg : String)

/-- Embeds lookup (src/hw1.py lines 12-27); runWhois models the
subprocess.run of the whois command. -/
def lookup (runWhois : String → ProcResult) (domain : String) : String × Option String :=
  match runWhois domain with
  | .completed rc out err =>
    if rc ≠ 0 then ("", some ("WHOIS command failed: " ++ pyStrip err))
    else (out, none)
  | .timedOut => ("", some "Timeout")
  | .raised msg => ("", some ("Error: " ++ msg))

/-- Embeds the referral block of get_registrar_for_domain
(src/hw1.py lines 158-177); runWhoisAt models subprocess.run of
whois -h referral_server normalized_domain.  Any failure of the referral
query falls through to the final "No registrar found" return. -/
def referralAttempt (runWhoisAt : String → String → ProcResult)
    (domain normalized_domain : String) (parsed_data : Dict) : String × String :=
  if (check_referral parsed_data).getD "" != "" then
    match runWhoisAt ((check_referral parsed_data).getD "") normalized_domain with
    | .completed rc out _ =>
      if rc == 0 && pyStrip out != "" then
        if (find_registrar (parse_whois_data out)).getD "" != "" then
          (domain, (find_registrar (parse_whois_data out)).getD "")
        else (domain, "No registrar found")
      else (domain, "No registrar found")
    | .timedOut => (domain, "No registrar found")
    | .raised _ => (domain, "No registrar found")
  else (domain, "No registrar found")

/-- Embeds get_registrar_for_domain (src/hw1.py lines 132-177), with the
two subprocess call sites abstracted as oracles.  The time.sleep pacing
delay has no effect on the returned value and is omitted. -/
def get_registrar_for_domain (runWhois : String → ProcResult)
    (runWhoisAt : String → String → ProcResult) (domain : String) : String × String :=
  if (lookup runWhois (extract_registrable_domain domain)).2.getD "" != "" then
    (domain, (lookup runWhois (extract_registrable_domain domain)).2.getD "")
  else if pyStrip (lookup runWhois (extract_registrable_domain domain)).1 == "" then
    (domain, "No WHOIS data returned")
  else if (find_registrar (parse_whois_data
      (lookup runWhois (extract_registrable_domain domain)).1)).getD "" != "" then
    (domain, (find_registrar (parse_whois_data
      (lookup runWhois (extract_registrable_domain domain)).1)).getD "")
  else
    referralAttempt runWhoisAt domain (extract_registrable_domain domain)
      (parse_whois_data (lookup runWhois (extract_registrable_domain domain)).1)

/-- Embeds get_registrars_for_domains (src/hw1.py lines 180-184).
ThreadPoolExecutor.map is documented to yield results in the order of its
input iterable regardless of completion order, so the batch is List.map. -/
def get_registrars_for_domains (runWhois : String → ProcResult)
    (runWhoisAt : String → String → ProcResult) (domains : List String) :
    List (String × String) :=
  domains.map (get_registrar_for_domain runWhois runWhoisAt)

/-! ### Lemmas about the Python split/join primitives -/

lemma splitCharL_ne_nil (sep : Char) : ∀ l : List Char, splitCharL sep l ≠ []
  | [] => by simp [splitCharL]
  | c :: rest => by
    unfold splitCharL
    cases h : splitCharL sep rest with
    | nil => simp
    | cons g gs => by_cases hc : c = sep <;> simp [hc]

lemma sep_not_mem_of_mem_splitCharL (sep : Char) :
    ∀ l g, g ∈ splitCharL sep l → sep ∉ g := by
  intro l
  induction l with
  | nil => intro g hg; simp [splitCharL] at hg; simp [hg]
  | cons c rest ih =>
    intro g hg
    unfold splitCharL at hg
    cases h : splitCharL sep rest with
    | nil => exact absurd h (splitCharL_ne_nil sep rest)
    | cons g0 gs =>
      rw [h] at hg
      by_cases hc : c = sep
      · simp [hc] at hg
        rcases hg with hg | hg | hg
        · simp [hg]
        · exact ih g (by rw [h, hg]; exact List.mem_cons_self g0 gs)
        · exact ih g (by rw [h]; exact List.mem_cons_of_mem g0 hg)
      · simp [hc] at hg
        rcases hg with hg | hg
        · have hg0 : sep ∉ g0 := ih g0 (by rw [h]; exact List.mem_cons_self g0 gs)
          rw [hg]
          intro hmem
          rcases List.mem_cons.mp hmem with h1 | h1
          · exact hc h1.symm
          · exact hg0 h1
        · exact ih g (by rw [h]; exact List.mem_cons_of_mem g0 hg)

lemma splitCharL_of_not_mem (sep : Char) :
    ∀ g : List Char, sep ∉ g → splitCharL sep g = [g] := by
  intro g
  induction g with
  | nil => intro; rfl
  | cons c rest ih =>
    intro h
    have hc : c ≠ sep := fun hcc => h (by simp [hcc])
    have hrest : sep ∉ rest := fun hr => h (List.mem_cons_of_mem c hr)
    unfold splitCharL
    rw [ih hrest]
    simp [hc]

lemma splitCharL_append_sep (sep : Char) (l : List Char) :
    ∀ g : List Char, sep ∉ g → splitCharL sep (g ++ sep :: l) = g :: splitCharL sep l := by
  intro g
  induction g with
  | nil =>
    intro
    show splitCharL sep (sep :: l) = [] :: splitCharL sep l
    cases h : splitCharL sep l with
    | nil => exact absurd h (splitCharL_ne_nil sep l)
    | cons g0 gs => simp [splitCharL, h]
  | cons c rest ih =>
    intro h
    have hc : c ≠ sep := fun hcc => h (by simp [hcc])
    have hrest : sep ∉ rest := fun hr => h (List.mem_cons_of_mem c hr)
    show splitCharL sep (c :: (rest ++ sep :: l)) = (c :: rest) :: splitCharL sep l
    cases h0 : splitCharL sep l with
    | nil => exact absurd h0 (splitCharL_ne_nil sep l)
    | cons g0 gs =>
      conv_lhs => unfold splitCharL
      rw [ih hrest, h0]
      simp [hc]

lemma splitCharL_joinCharL (sep : Char) :
    ∀ gs : List (List Char), gs ≠ [] → (∀ g ∈ gs, sep ∉ g) →
      splitCharL sep (joinCharL sep gs) = gs := by
  intro gs
  induction gs with
  | nil => intro h; exact absurd rfl h
  | cons g rest ih =>
    intro _ hsep
    cases rest with
    | nil =>
      show splitCharL sep g = [g]
      exact splitCharL_of_not_mem sep g (hsep g (by simp))
    | cons g2 gs2 =>
      show splitCharL sep (g ++ sep :: joinCharL sep (g2 :: gs2)) = g :: g2 :: gs2
      rw [splitCharL_append_sep sep _ g (hsep g (by simp))]
      rw [ih (by simp) (fun x hx => hsep x (List.mem_cons_of_mem g hx))]

lemma toList_asString (l : List Char) : (List.asString l).toList = l := rfl

lemma asString_toList (s : String) : s.toList.asString = s := rfl

lemma pySplit_pyJoin (sep : Char) (xs : List String) (hne : xs ≠ [])
    (h : ∀ x ∈ xs, sep ∉ x.toList) : pySplit sep (pyJoin sep xs) = xs := by
  unfold pySplit pyJoin
  rw [toList_asString]
  rw [splitCharL_joinCharL sep (xs.map String.toList) (by simpa using hne)
    (by intro g hg; rcases List.mem_map.mp hg with ⟨x, hx, rfl⟩; exact h x hx)]
  rw [List.map_map]
  have : (List.asString ∘ String.toList) = id := by
    funext x; exact asString_toList x
  rw [this, List.map_id]

lemma sep_not_mem_of_mem_pySplit (sep : Char) (s : String) :
    ∀ x ∈ pySplit sep s, sep ∉ x.toList := by
  intro x hx
  unfold pySplit at hx
  rcases List.mem_map.mp hx with ⟨g, hg, rfl⟩
  rw [toList_asString]
  exact sep_not_mem_of_mem_splitCharL sep s.toList g hg

/-! ### Claims about the Domain Normalizer -/

/-- The Domain Normalizer as claim C5 words it (modelling the spec text of
section 4.1, for comparison with the source function): lower-case; strip a
leading http:// or https:// protocol; strip a leading www. after any
stripped protocol; then strip one leading label from the fixed set when
more than two dot-separated labels remain. -/
def claimNormalizerC5 (domain : String) : String :=
  let s0 := pyLower domain
  let s1 := if startsWithPy s0 "http://" then (s0.toList.drop 7).asString
            else if startsWithPy s0 "https://" then (s0.toList.drop 8).asString
            else s0
  let s2 := if startsWithPy s1 "www." then (s1.toList.drop 4).asString else s1
  if 2 < (pySplit '.' s2).length ∧ (pySplit '.' s2).headD "" ∈ subdomain_labels then
    pyJoin '.' (pySplit '.' s2).tail
  else s2

lemma extract_eq_self_of_not_strippable (x : String)
    (h : ¬(2 < (pySplit '.' (pyLower x)).length ∧
      (pySplit '.' (pyLower x)).headD "" ∈ subdomain_labels)) :
    extract_registrable_domain x = x := by
  unfold extract_registrable_domain; rw [if_neg h]

/-- C5 counterexample: the claim says normalization lower-cases the input
and strips a leading http:// protocol and a following www. label, which
would send "http://www.Example.com" to "example.com"; the source function
returns the input unchanged, upper-case letters and protocol included. -/
theorem c5_counterexample :
    claimNormalizerC5 "http://www.Example.com" = "example.com" ∧
    extract_registrable_domain "http://www.Example.com" = "http://www.Example.com" ∧
    "http://www.Example.com" ≠ "example.com" := by decide

/-- C5 (amended): normalization strips no protocol prefix and does not
unconditionally lower-case: every input either passes through completely
unchanged, or — when its lower-cased form has more than two dot-separated
labels and the first label is one of www, mail, ftp, blog, shop — is
mapped to the remaining lower-cased labels joined by dots. -/
theorem c5_normalizer_amended (domain : String) :
    extract_registrable_domain domain = domain ∨
    (2 < (pySplit '.' (pyLower domain)).length ∧
     (pySplit '.' (pyLower domain)).headD "" ∈ subdomain_labels ∧
     extract_registrable_domain domain = pyJoin '.' (pySplit '.' (pyLower domain)).tail) := by
  by_cases h : 2 < (pySplit '.' (pyLower domain)).length ∧
      (pySplit '.' (pyLower domain)).headD "" ∈ subdomain_labels
  · exact Or.inr ⟨h.1, h.2, by unfold extract_registrable_domain; rw [if_pos h]⟩
  · exact Or.inl (by unfold extract_registrable_domain; rw [if_neg h])

/-- C6 counterexample: normalization is not idempotent; a second pass over
the already-normalized "www.mail.example.com" strips one more label. -/
theorem c6_counterexample :
    extract_registrable_domain (extract_registrable_domain "www.mail.example.com") ≠
      extract_registrable_domain "www.mail.example.com" := by decide

/-- C6 (amended): normalization is idempotent exactly on inputs whose
normalized form is not itself strippable again, i.e. whenever the
normalized result has at most two dot-separated labels or its leading
label is not in the strippable set; in general a second pass can strip one
further label (e.g. www.mail.example.com). -/
theorem c6_idempotent_amended (d : String)
    (h : ¬(2 < (pySplit '.' (pyLower (extract_registrable_domain d))).length ∧
      (pySplit '.' (pyLower (extract_registrable_domain d))).headD "" ∈ subdomain_labels)) :
    extract_registrable_domain (extract_registrable_domain d) =
      extract_registrable_domain d :=
  extract_eq_self_of_not_strippable (extract_registrable_domain d) h

theorem c6_idempotent_amended_witness :
    ¬(2 < (pySplit '.' (pyLower (extract_registrable_domain "www.example.com"))).length ∧
      (pySplit '.' (pyLower (extract_registrable_domain "www.example.com"))).headD "" ∈
        subdomain_labels) ∧
    extract_registrable_domain (extract_registrable_domain "www.example.com") =
      extract_registrable_domain "www.example.com" :=
  ⟨by decide, c6_idempotent_amended "www.example.com" (by decide)⟩

/-- C10: normalization removes at most one leading label per invocation:
when the lower-cased input has more than two dot-separated labels and the
first is in the strippable set, the result is exactly the remaining
lower-cased labels joined by dots (its label list is the tail of the
input's label list); in every other case the input is returned unchanged,
original letter case included. -/
theorem c10_single_label_strip (domain : String) :
    ((2 < (pySplit '.' (pyLower domain)).length ∧
      (pySplit '.' (pyLower domain)).headD "" ∈ subdomain_labels) →
      extract_registrable_domain domain = pyJoin '.' (pySplit '.' (pyLower domain)).tail ∧
      pySplit '.' (extract_registrable_domain domain) =
        (pySplit '.' (pyLower domain)).tail) ∧
    (¬(2 < (pySplit '.' (pyLower domain)).length ∧
      (pySplit '.' (pyLower domain)).headD "" ∈ subdomain_labels) →
      extract_registrable_domain domain = domain) := by
  constructor
  · intro h
    have heq : extract_registrable_domain domain =
        pyJoin '.' (pySplit '.' (pyLower domain)).tail := by
      unfold extract_registrable_domain; rw [if_pos h]
    refine ⟨heq, ?_⟩
    rw [heq]
    apply pySplit_pyJoin
    · intro htail
      have := h.1
      have hlen : (pySplit '.' (pyLower domain)).tail.length =
          (pySplit '.' (pyLower domain)).length - 1 := List.length_tail _
      rw [htail] at hlen
      simp only [List.length_nil] at hlen
      omega
    · intro x hx
      exact sep_not_mem_of_mem_pySplit '.' (pyLower domain) x (List.mem_of_mem_tail hx)
  · intro h
    unfold extract_registrable_domain; rw [if_neg h]

theorem c10_single_label_strip_witness :
    (2 < (pySplit '.' (pyLower "www.sub.Example.com")).length ∧
      (pySplit '.' (pyLower "www.sub.Example.com")).headD "" ∈ subdomain_labels) ∧
    extract_registrable_domain "www.sub.Example.com" =
      pyJoin '.' (pySplit '.' (pyLower "www.sub.Example.com")).tail ∧
    pySplit '.' (extract_registrable_domain "www.sub.Example.com") =
      (pySplit '.' (pyLower "www.sub.Example.com")).tail :=
  ⟨by decide, (c10_single_label_strip "www.sub.Example.com").1 (by decide)⟩

/-! ### Claims about the Registrar Resolver and Referral Detection -/

/-- The Registrar Resolver as the claim words it: the value of the first
candidate field that is present and whose value passes the noise filter. -/
def claimResolverScan (d : Dict) : Option String :=
  (registrar_fields.filterMap (fun f => Option.filter registrarValueOk (dget? d f))).head?

/-- Referral detection as the claim words it: the first present candidate
value that is non-empty and passes the startsWith filter. -/
def claimReferralScan (d : Dict) : Option String :=
  (referral_fields.filterMap (fun f => Option.filter referralValueOk (dget? d f))).head?

lemma findRegistrarGo_eq_scan (d : Dict) : ∀ fields : List String,
    findRegistrarGo d fields =
      (fields.filterMap (fun f => Option.filter registrarValueOk (dget? d f))).head? := by
  intro fields
  induction fields with
  | nil => rfl
  | cons f rest ih =>
    unfold findRegistrarGo
    cases h : dget? d f with
    | none => simp [List.filterMap_cons, h, Option.filter, ih]
    | some v =>
      cases hv : registrarValueOk v <;>
        simp [List.filterMap_cons, h, Option.filter, hv, ih]

lemma checkReferralGo_eq_scan (d : Dict) : ∀ fields : List String,
    checkReferralGo d fields =
      (fields.filterMap (fun f => Option.filter referralValueOk (dget? d f))).head? := by
  intro fields
  induction fields with
  | nil => rfl
  | cons f rest ih =>
    unfold checkReferralGo
    cases h : dget? d f with
    | none => simp [List.filterMap_cons, h, Option.filter, ih]
    | some v =>
      cases hv : referralValueOk v <;>
        simp [List.filterMap_cons, h, Option.filter, hv, ih]

/-- C2: the resolver scans registrar, sponsoring registrar, registrar name,
registrar organization, registrant organization in that fixed order and
returns the first present value whose lower-cased form contains none of
http, whois, .com/, .net/; the record pairing a URL-valued registrar with
registrant organization "Example LLC" resolves to "Example LLC", and a
record with no acceptable candidate resolves to none. -/
theorem c2_resolver_priority (d : Dict) :
    find_registrar d = claimResolverScan d ∧
    find_registrar [("registrar", "http://example-registrar.com"),
      ("registrant organization", "Example LLC")] = some "Example LLC" ∧
    ((registrar_fields.all
        (fun f => (Option.filter registrarValueOk (dget? d f)).isNone)) = true →
      find_registrar d = none) := by
  refine ⟨findRegistrarGo_eq_scan d registrar_fields, by decide, ?_⟩
  intro hall
  unfold find_registrar
  rw [findRegistrarGo_eq_scan d registrar_fields]
  have : registrar_fields.filterMap (fun f => Option.filter registrarValueOk (dget? d f)) = [] := by
    rw [List.filterMap_eq_nil_iff]
    intro f hf
    have := List.all_eq_true.mp hall f hf
    exact Option.isNone_iff_eq_none.mp this
  rw [this]
  rfl

theorem c2_resolver_priority_witness :
    (registrar_fields.all
      (fun f => (Option.filter registrarValueOk
        (dget? [("registrar", "whois.markmonitor.com")] f)).isNone)) = true ∧
    find_registrar [("registrar", "whois.markmonitor.com")] = none :=
  ⟨by decide, (c2_resolver_priority [("registrar", "whois.markmonitor.com")]).2.2 (by decide)⟩

/-- C7 counterexample: the claim says the first present referral value that
is non-empty and does not start with "http" is returned; the value
"HTTP://registry.example" does not start with the lower-case string "http",
yet the source rejects it (it lower-cases the value before the startswith
test) and returns none. -/
theorem c7_counterexample :
    dget? [("whois server", "HTTP://registry.example")] "whois server" =
      some "HTTP://registry.example" ∧
    ("HTTP://registry.example" != "") = true ∧
    startsWithPy "HTTP://registry.example" "http" = false ∧
    check_referral [("whois server", "HTTP://registry.example")] = none := by decide

/-- C7 (amended): referral detection scans whois server, referral whois
server, whois in that order and returns the first present value that is
non-empty and whose lower-cased form does not start with "http",
returning none when no such field exists. -/
theorem c7_referral_scan (d : Dict) :
    check_referral d = claimReferralScan d ∧
    ((referral_fields.all
        (fun f => (Option.filter referralValueOk (dget? d f)).isNone)) = true →
      check_referral d = none) := by
  refine ⟨checkReferralGo_eq_scan d referral_fields, ?_⟩
  intro hall
  unfold check_referral
  rw [checkReferralGo_eq_scan d referral_fields]
  have : referral_fields.filterMap (fun f => Option.filter referralValueOk (dget? d f)) = [] := by
    rw [List.filterMap_eq_nil_iff]
    intro f hf
    have := List.all_eq_true.mp hall f hf
    exact Option.isNone_iff_eq_none.mp this
  rw [this]
  rfl

theorem c7_referral_scan_witness :
    (referral_fields.all
      (fun f => (Option.filter referralValueOk
        (dget? [("whois", "https://registry.example")] f)).isNone)) = true ∧
    check_referral [("whois", "https://registry.example")] = none :=
  ⟨by decide, (c7_referral_scan [("whois", "https://registry.example")]).2 (by decide)⟩

/-! ### Claims about the Response Parser -/

/-- A parseable line as claim C3 words it: after trimming it is non-empty,
does not start with % or #, contains a colon, and the trimmed value after
splitting on the first colon only is non-empty. -/
def claimParseableLine (line : String) : Bool :=
  pyStrip line != "" && !(startsWithPy (pyStrip line) "%") &&
    !(startsWithPy (pyStrip line) "#") && pyContains (pyStrip line) ":" &&
    pyStrip (splitFirst ':' (pyStrip line)).2 != ""

/-- The value bound to key k by the last pair of ps carrying k. -/
def lastValue (k : String) (ps : List (String × String)) : Option String :=
  (ps.reverse.find? (fun p => p.1 == k)).map Prod.snd

lemma dget?_cons (p : String × String) (l : Dict) (k : String) :
    dget? (p :: l) k = if p.1 == k then some p.2 else dget? l k := by
  unfold dget?
  cases h : (p.1 == k) <;> simp [List.find?, h]

lemma dget?_dinsert (k v k' : String) : ∀ d : Dict,
    dget? (dinsert k v d) k' = if k' = k then some v else dget? d k' := by
  intro d
  induction d with
  | nil =>
    by_cases h : k' = k
    · simp [dinsert, dget?, List.find?, h]
    · have hb : (k == k') = false := beq_eq_false_iff_ne.mpr (Ne.symm h)
      simp [dinsert, dget?, List.find?, hb, h]
  | cons p rest ih =>
    by_cases hpk : p.1 = k
    · rw [show dinsert k v (p :: rest) = (k, v) :: rest by simp [dinsert, hpk]]
      rw [dget?_cons, dget?_cons]
      by_cases h : k' = k
      · simp [h]
      · simp [hpk, h, Ne.symm h]
    · rw [show dinsert k v (p :: rest) = p :: dinsert k v rest by simp [dinsert, hpk]]
      rw [dget?_cons, dget?_cons, ih]
      by_cases hpk' : p.1 = k'
      · have : ¬(k' = k) := fun h => hpk (hpk'.trans h)
        simp [hpk', this]
      · simp [hpk']

lemma lastValue_cons (k : String) (kv : String × String) (rest : List (String × String)) :
    lastValue k (kv :: rest) =
      match lastValue k rest with
      | some v => some v
      | none => if kv.1 == k then some kv.2 else none := by
  unfold lastValue
  rw [List.reverse_cons, List.find?_append]
  cases h : rest.reverse.find? (fun p => p.1 == k) with
  | some p => simp [Option.or]
  | none =>
    simp only [Option.map, Option.or]
    cases hk : (kv.1 == k) <;> simp [List.find?, hk]

lemma dget?_foldl_dinsert (k : String) : ∀ (ps : List (String × String)) (acc : Dict),
    dget? (ps.foldl (fun r kv => dinsert kv.1 kv.2 r) acc) k =
      match lastValue k ps with
      | some v => some v
      | none => dget? acc k := by
  intro ps
  induction ps with
  | nil => intro acc; simp [lastValue]
  | cons kv rest ih =>
    intro acc
    rw [List.foldl_cons, ih, lastValue_cons]
    cases h : lastValue k rest with
    | some v => rfl
    | none =>
      rw [dget?_dinsert]
      by_cases hk : k = kv.1
      · simp [hk]
      · simp [hk, Ne.symm hk]

lemma foldl_filterMap_dinsert : ∀ (l : List String) (init : Dict),
    (l.filterMap parseLineKV).foldl (fun r kv => dinsert kv.1 kv.2 r) init =
      l.foldl
        (fun result line =>
          match parseLineKV line with
          | some kv => dinsert kv.1 kv.2 result
          | none => result) init := by
  intro l
  induction l with
  | nil => intro init; rfl
  | cons a rest ih =>
    intro init
    cases h : parseLineKV a <;> simp [List.filterMap_cons, h, ih]

lemma keys_dinsert (k v : String) : ∀ d : Dict,
    (dinsert k v d).map Prod.fst =
      if k ∈ d.map Prod.fst then d.map Prod.fst else d.map Prod.fst ++ [k] := by
  intro d
  induction d with
  | nil => simp [dinsert]
  | cons p rest ih =>
    by_cases h : p.1 = k
    · simp [dinsert, h]
    · rw [show dinsert k v (p :: rest) = p :: dinsert k v rest by simp [dinsert, h]]
      by_cases hk : k ∈ rest.map Prod.fst
      · simp [ih, hk, Ne.symm h]
      · simp [ih, hk, Ne.symm h]

lemma nodup_keys_dinsert (k v : String) (d : Dict)
    (h : (d.map Prod.fst).Nodup) : ((dinsert k v d).map Prod.fst).Nodup := by
  rw [keys_dinsert]
  by_cases hk : k ∈ d.map Prod.fst
  · simpa [hk]
  · simp only [hk, if_false]
    rw [List.nodup_append]
    exact ⟨h, List.nodup_singleton k, by simpa [List.disjoint_singleton] using hk⟩

lemma nodup_keys_foldl : ∀ (ps : List (String × String)) (acc : Dict),
    (acc.map Prod.fst).Nodup →
      (((ps.foldl (fun r kv => dinsert kv.1 kv.2 r) acc)).map Prod.fst).Nodup := by
  intro ps
  induction ps with
  | nil => intro acc h; simpa using h
  | cons kv rest ih =>
    intro acc h
    rw [List.foldl_cons]
    exact ih _ (nodup_keys_dinsert kv.1 kv.2 acc h)

lemma parse_whois_data_eq_foldl_pairs (data : String) :
    parse_whois_data data =
      ((pySplit '\n' data).filterMap parseLineKV).foldl
        (fun r kv => dinsert kv.1 kv.2 r) [] := by
  unfold parse_whois_data
  rw [foldl_filterMap_dinsert]

/-- C3: the parser stores exactly one entry per parseable line, where a
line is parseable iff after trimming it is non-empty, is no % or # comment,
contains a colon, and its trimmed value after the first colon is non-empty;
keys are trimmed and lower-cased, later duplicate keys overwrite earlier
ones (lookup returns the last parseable occurrence), the resulting keys
are unique, and parsing "% notice\nRegistrar: Example Corp\n" yields
exactly the mapping registrar -> Example Corp. -/
theorem c3_parser_characterization (data line k : String) :
    (parseLineKV line).isSome = claimParseableLine line ∧
    dget? (parse_whois_data data) k =
      lastValue k ((pySplit '\n' data).filterMap parseLineKV) ∧
    ((parse_whois_data data).map Prod.fst).Nodup ∧
    parse_whois_data "% notice\nRegistrar: Example Corp\n" =
      [("registrar", "Example Corp")] := by
  refine ⟨?_, ?_, ?_, by decide⟩
  · unfold parseLineKV claimParseableLine
    by_cases h1 : pyStrip line = "" <;>
      cases h2 : startsWithPy (pyStrip line) "%" <;>
      cases h3 : startsWithPy (pyStrip line) "#" <;>
      cases h4 : pyContains (pyStrip line) ":" <;>
      by_cases h5 : pyStrip (splitFirst ':' (pyStrip line)).2 = "" <;>
      simp [h1, h2, h3, h4, h5]
  · rw [parse_whois_data_eq_foldl_pairs, dget?_foldl_dinsert]
    cases h : lastValue k ((pySplit '\n' data).filterMap parseLineKV) with
    | some v => rfl
    | none => simp [dget?]
  · rw [parse_whois_data_eq_foldl_pairs]
    exact nodup_keys_foldl _ [] (by simp)

/-! ### Claims about the per-domain Orchestrator and the Batch Scheduler -/

/-- A failed referral-pass query as claim C4 enumerates it: timeout,
transport error (an exception), non-zero exit, or an empty (whitespace
only) referral response. -/
def referralFailed : ProcResult → Bool
  | .completed rc out _ => !(rc == 0 && pyStrip out != "")
  | .timedOut => true
  | .raised _ => true

lemma referralAttempt_fst (runWhoisAt : String → String → ProcResult)
    (domain nd : String) (pd : Dict) :
    (referralAttempt runWhoisAt domain nd pd).1 = domain := by
  unfold referralAttempt
  repeat' split
  all_goals rfl

lemma get_registrar_for_domain_fst (runW : String → ProcResult)
    (runWA : String → String → ProcResult) (d : String) :
    (get_registrar_for_domain runW runWA d).1 = d := by
  unfold get_registrar_for_domain
  repeat' split
  all_goals first
    | rfl
    | exact referralAttempt_fst runWA d (extract_registrable_domain d)
        (parse_whois_data (lookup runW (extract_registrable_domain d)).1)

/-- C1: the batch operation returns one result per input domain, in input
order: the result list has the same length as the input list and the i-th
result's domain component is exactly the i-th input string as originally
supplied (get_registrar_for_domain returns the raw input domain, not the
normalized form), independent of completion order (the pool's map yields
results in input order, modelled as List.map). -/
theorem c1_batch_preserves_order (runW : String → ProcResult)
    (runWA : String → String → ProcResult) (domains : List String) :
    (get_registrars_for_domains runW runWA domains).length = domains.length ∧
    ∀ (i : Nat) (h1 : i < (get_registrars_for_domains runW runWA domains).length)
      (h2 : i < domains.length),
      ((get_registrars_for_domains runW runWA domains).get ⟨i, h1⟩).1 =
        domains.get ⟨i, h2⟩ := by
  constructor
  · exact List.length_map domains (get_registrar_for_domain runW runWA)
  · intro i h1 h2
    unfold get_registrars_for_domains
    simp only [List.get_eq_getElem, List.getElem_map]
    exact get_registrar_for_domain_fst runW runWA _

theorem c1_batch_preserves_order_witness :
    ((get_registrars_for_domains (fun _ => ProcResult.timedOut)
        (fun _ _ => ProcResult.timedOut) ["www.Example.com", "b.org"]).get
      ⟨1, by decide⟩).1 = "b.org" := by
  have h := (c1_batch_preserves_order (fun _ => ProcResult.timedOut)
    (fun _ _ => ProcResult.timedOut) ["www.Example.com", "b.org"]).2 1 (by decide) (by decide)
  simpa using h

/-- C4: referral-query failures are swallowed: when the first pass
succeeded with non-blank content, the resolver found no registrar, a
referral server was detected, and the referral query fails in any way
(timeout, exception, non-zero exit, or blank output), the result is the
NotFound outcome "No registrar found" rather than an Error outcome; and a
failed first-pass query short-circuits to its error message for every
referral oracle alike (no referral attempt can influence the result), as
does a first pass whose resolver already found a registrar. -/
theorem c4_referral_failures_swallowed (runW : String → ProcResult)
    (runWA runWA2 : String → String → ProcResult) (d : String) :
    ((lookup runW (extract_registrable_domain d)).2.getD "" ≠ "" →
      get_registrar_for_domain runW runWA d =
        (d, (lookup runW (extract_registrable_domain d)).2.getD "") ∧
      get_registrar_for_domain runW runWA d = get_registrar_for_domain runW runWA2 d) ∧
    (∀ s : String,
      (lookup runW (extract_registrable_domain d)).2.getD "" = "" →
      pyStrip (lookup runW (extract_registrable_domain d)).1 ≠ "" →
      (find_registrar (parse_whois_data
        (lookup runW (extract_registrable_domain d)).1)).getD "" = "" →
      (check_referral (parse_whois_data
        (lookup runW (extract_registrable_domain d)).1)).getD "" = s →
      s ≠ "" →
      referralFailed (runWA s (extract_registrable_domain d)) = true →
      get_registrar_for_domain runW runWA d = (d, "No registrar found")) ∧
    ((lookup runW (extract_registrable_domain d)).2.getD "" = "" →
      pyStrip (lookup runW (extract_registrable_domain d)).1 ≠ "" →
      (find_registrar (parse_whois_data
        (lookup runW (extract_registrable_domain d)).1)).getD "" ≠ "" →
      get_registrar_for_domain runW runWA d =
        (d, (find_registrar (parse_whois_data
          (lookup runW (extract_registrable_domain d)).1)).getD "")) := by
  refine ⟨?_, ?_, ?_⟩
  · intro h
    constructor
    · simp [get_registrar_for_domain, h]
    · simp [get_registrar_for_domain, h]
  · intro s hok hnb hnoreg hserver hs hfail
    have hmain : get_registrar_for_domain runW runWA d =
        referralAttempt runWA d (extract_registrable_domain d)
          (parse_whois_data (lookup runW (extract_registrable_domain d)).1) := by
      simp [get_registrar_for_domain, hok, hnb, hnoreg]
    rw [hmain]
    unfold referralAttempt
    rw [hserver]
    cases hr : runWA s (extract_registrable_domain d) with
    | completed rc out err =>
      have hfalse : (rc == 0 && pyStrip out != "") = false := by
        have h2 := hfail
        rw [hr] at h2
        unfold referralFailed at h2
        simp only [Bool.not_eq_true'] at h2
        exact h2
      simp [hs, hr, hfalse]
    | timedOut => simp [hs, hr]
    | raised m => simp [hs, hr]
  · intro hok hnb hreg
    simp [get_registrar_for_domain, hok, hnb, hreg]

theorem c4_referral_failures_swallowed_witness :
    get_registrar_for_domain (fun _ => ProcResult.raised "boom")
      (fun _ _ => ProcResult.completed 0 "registrar: Trap Registrar" "") "example.com" =
      ("example.com", "Error: boom") ∧
    get_registrar_for_domain (fun _ => ProcResult.completed 0 "whois: whois.example-registry.net" "")
      (fun _ _ => ProcResult.raised "net down") "example.com" =
      ("example.com", "No registrar found") := by
  constructor
  · have h := ((c4_referral_failures_swallowed (fun _ => ProcResult.raised "boom")
      (fun _ _ => ProcResult.completed 0 "registrar: Trap Registrar" "")
      (fun _ _ => ProcResult.timedOut) "example.com").1 (by decide)).1
    exact h.trans (by decide)
  · exact (c4_referral_failures_swallowed
      (fun _ => ProcResult.completed 0 "whois: whois.example-registry.net" "")
      (fun _ _ => ProcResult.raised "net down")
      (fun _ _ => ProcResult.timedOut) "example.com").2.1
      "whois.example-registry.net" (by decide) (by decide) (by decide) (by decide)
      (by decide) (by decide)

/-- C8: a first-pass query that succeeds (no error) but whose text strips
to the empty string yields the error "No WHOIS data returned", which is a
distinct outcome from the NotFound status "No registrar found". -/
theorem c8_empty_response_is_error (runW : String → ProcResult)
    (runWA : String → String → ProcResult) (d : String)
    (hok : (lookup runW (extract_registrable_domain d)).2.getD "" = "")
    (hblank : pyStrip (lookup runW (extract_registrable_domain d)).1 = "") :
    get_registrar_for_domain runW runWA d = (d, "No WHOIS data returned") ∧
    ("No WHOIS data returned" : String) ≠ "No registrar found" := by
  constructor
  · simp [get_registrar_for_domain, hok, hblank]
  · decide

theorem c8_empty_response_is_error_witness :
    get_registrar_for_domain (fun _ => ProcResult.completed 0 " \n  " "")
      (fun _ _ => ProcResult.timedOut) "example.com" =
      ("example.com", "No WHOIS data returned") :=
  (c8_empty_response_is_error (fun _ => ProcResult.completed 0 " \n  " "")
    (fun _ _ => ProcResult.timedOut) "example.com" (by decide) (by decide)).1

/-- C9 counterexample: a domain that terminates in the NotFound outcome
(first pass succeeded with content, no registrar field matched, no
referral) reports the status string "No registrar found", not the string
"Not found" the claim requires. -/
theorem c9_counterexample :
    get_registrar_for_domain (fun _ => ProcResult.completed 0 "domain: example.com" "")
      (fun _ _ => ProcResult.timedOut) "example.com" =
      ("example.com", "No registrar found") ∧
    ("No registrar found" : String) ≠ "Not found" := by decide

/-- C9 (amended): for every domain that terminates in the NotFound outcome,
the status string reported in the result is exactly "No registrar found".
A domain terminates in NotFound exactly when the first pass succeeded with
content and its resolver found no registrar, and then one of three branches
is taken, each proved here: no referral server was detected; a referral
server was detected but the referral query failed (timeout, exception,
non-zero exit, or blank output); or the referral query succeeded with
content but the referral response itself resolves to no registrar
(src/hw1.py lines 169-177 falling through to line 177). -/
theorem c9_notfound_status (runW : String → ProcResult)
    (runWA : String → String → ProcResult) (d : String)
    (hok : (lookup runW (extract_registrable_domain d)).2.getD "" = "")
    (hnb : pyStrip (lookup runW (extract_registrable_domain d)).1 ≠ "")
    (hnoreg : (find_registrar (parse_whois_data
      (lookup runW (extract_registrable_domain d)).1)).getD "" = "") :
    ((check_referral (parse_whois_data
        (lookup runW (extract_registrable_domain d)).1)).getD "" = "" →
      get_registrar_for_domain runW runWA d = (d, "No registrar found")) ∧
    (∀ s : String,
      (check_referral (parse_whois_data
        (lookup runW (extract_registrable_domain d)).1)).getD "" = s →
      s ≠ "" →
      (referralFailed (runWA s (extract_registrable_domain d)) = true →
        get_registrar_for_domain runW runWA d = (d, "No registrar found")) ∧
      (∀ (rc : Int) (out err : String),
        runWA s (extract_registrable_domain d) = ProcResult.completed rc out err →
        (rc == 0 && pyStrip out != "") = true →
        (find_registrar (parse_whois_data out)).getD "" = "" →
        get_registrar_for_domain runW runWA d = (d, "No registrar found"))) := by
  have hmain : get_registrar_for_domain runW runWA d =
      referralAttempt runWA d (extract_registrable_domain d)
        (parse_whois_data (lookup runW (extract_registrable_domain d)).1) := by
    simp [get_registrar_for_domain, hok, hnb, hnoreg]
  refine ⟨?_, ?_⟩
  · intro hnoref
    rw [hmain]
    simp [referralAttempt, hnoref]
  · intro s hserver hs
    constructor
    · intro hfail
      rw [hmain]
      unfold referralAttempt
      rw [hserver]
      cases hr : runWA s (extract_registrable_domain d) with
      | completed rc out err =>
        have hfalse : (rc == 0 && pyStrip out != "") = false := by
          have h2 := hfail
          rw [hr] at h2
          unfold referralFailed at h2
          simp only [Bool.not_eq_true'] at h2
          exact h2
        simp [hs, hr, hfalse]
      | timedOut => simp [hs, hr]
      | raised m => simp [hs, hr]
    · intro rc out err hr hcontent hnoreg2
      rw [hmain]
      unfold referralAttempt
      rw [hserver, hr]
      simp [hs, hcontent, hnoreg2]

theorem c9_notfound_status_witness :
    get_registrar_for_domain (fun _ => ProcResult.completed 0 "domain: test.org\ncreated: 2001" "")
      (fun _ _ => ProcResult.timedOut) "test.org" = ("test.org", "No registrar found") ∧
    get_registrar_for_domain (fun _ => ProcResult.completed 0 "whois: whois.example-registry.net" "")
      (fun _ _ => ProcResult.timedOut) "test.org" = ("test.org", "No registrar found") ∧
    get_registrar_for_domain (fun _ => ProcResult.completed 0 "whois: whois.example-registry.net" "")
      (fun _ _ => ProcResult.completed 0 "domain: test.org" "") "test.org" =
      ("test.org", "No registrar found") := by
  refine ⟨?_, ?_, ?_⟩
  · exact (c9_notfound_status (fun _ => ProcResult.completed 0 "domain: test.org\ncreated: 2001" "")
      (fun _ _ => ProcResult.timedOut) "test.org" (by decide) (by decide) (by decide)).1 (by decide)
  · exact ((c9_notfound_status (fun _ => ProcResult.completed 0 "whois: whois.example-registry.net" "")
      (fun _ _ => ProcResult.timedOut) "test.org" (by decide) (by decide) (by decide)).2
      "whois.example-registry.net" (by decide) (by decide)).1 (by decide)
  · exact ((c9_notfound_status (fun _ => ProcResult.completed 0 "whois: whois.example-registry.net" "")
      (fun _ _ => ProcResult.completed 0 "domain: test.org" "") "test.org"
      (by decide) (by decide) (by decide)).2
      "whois.example-registry.net" (by decide) (by decide)).2 0 "domain: test.org" ""
      rfl (by decide) (by decide)

example : extract_registrable_domain "www.mail.example.com" = "mail.example.com" := by decide
example : extract_registrable_domain "Example.COM" = "Example.COM" := by decide
example : parse_whois_data "% notice\nRegistrar: Example Corp\n" =
    [("registrar", "Example Corp")] := by decide
example : find_registrar [("registrar", "http://example-registrar.com"),
    ("registrant organization", "Example LLC")] = some "Example LLC" := by decide
example : check_referral [("whois server", "HTTP://registry.example")] = none := by decide
example : get_registrar_for_domain (fun _ => ProcResult.timedOut)
    (fun _ _ => ProcResult.timedOut) "a.com" = ("a.com", "Timeout") := by decide

end Whois
